import Mathlib

/-!
Verification development for the sentence-to-word-timestamp alignment core
of the dictation-audio builder (src/pipeline/normalize.py,
src/pipeline/alignment.py, src/pipeline/builder.py).

The Python sources are shallowly embedded below: pure functions become Lean
functions on `String`/`List`/`ℚ`/`Int`, dictionaries become association
lists, and the stateful sentence loop of `SentenceAligner.align_sentences`
becomes a fold over an explicit state record.  Scores are exact rationals
(the Python floats in play are small dyadic/decimal values and every
comparison in the claims is far from any rounding boundary).
-/

namespace Dictation

/- The core rational operations are `@[irreducible]`, which stops `decide`
from evaluating concrete runs; the kernel itself unfolds them regardless, so
restoring default transparency is sound and lets the witnesses evaluate. -/
attribute [local semireducible] Rat.add Rat.mul Rat.inv Rat.sub

set_option maxRecDepth 40000

/-! ### Character-level helpers (Python `str` / `re` semantics on ASCII) -/

/-- Python's `\w` character class, restricted to ASCII (every string handled
by the claims is ASCII): letters, digits and underscore. -/
def isWordChar (c : Char) : Bool :=
  c.isAlphanum || c = '_'

/-- Python's `\s` character class (ASCII whitespace). -/
def isPySpace (c : Char) : Bool :=
  c = ' ' || c = '\t' || c = '\n' || c = '\x0d' || c = '\x0b' || c = '\x0c'

/-- Python `str.lower` (ASCII-faithful). -/
def pyLower (s : String) : String :=
  String.mk (s.data.map Char.toLower)

/-- Python `str.rstrip(chars)`: drop trailing characters that belong to
`chars`. -/
def pyRstrip (s : String) (chars : List Char) : String :=
  String.mk (((s.data.reverse).dropWhile (fun c => chars.contains c)).reverse)

/-- Python `str.isdigit` on ASCII: non-empty and all digits. -/
def pyIsDigit (cs : List Char) : Bool :=
  !cs.isEmpty && cs.all Char.isDigit

/-- Python `str.isupper` on ASCII: at least one cased character and no
lowercase one. -/
def pyIsUpper (cs : List Char) : Bool :=
  cs.any Char.isAlpha && cs.all (fun c => !c.isLower)

/-- Digits of a string read as a natural number (Python `int` on a digit
string). -/
def digitsToNat (cs : List Char) : Nat :=
  cs.foldl (fun n c => n * 10 + (c.toNat - 48)) 0

/-! ### `normalize.py`: `normalize_token` -/

/-- Modelled from the spec: step (1) of single-token normalization is
`unicodedata.normalize("NFKC", token)` (Python standard library, not part of
this repository).  NFKC is the identity on the ASCII strings that every
claim evaluates, so it is embedded as the identity map. -/
def nfkc (s : String) : String := s

/-- Steps (3)–(4) of `normalize_token`: curly quotes to straight quotes,
em dash to space, en dash to hyphen (the Python code performs the same
replacements sequentially on disjoint codepoints). -/
def normQuoteDash (c : Char) : Char :=
  if c.val = 0x2018 || c.val = 0x2019 then Char.ofNat 39
  else if c.val = 0x201C || c.val = 0x201D then '"'
  else if c.val = 0x2014 then ' '
  else if c.val = 0x2013 then '-'
  else c

/-- `re.sub(r'(?<=\w)-(?=\w)', '', token)`: drop each hyphen that stands
between two word characters (lookarounds evaluated on the original text). -/
def collapseHyphens : List Char → List Char
  | a :: '-' :: b :: rest =>
    if isWordChar a && isWordChar b then a :: collapseHyphens (b :: rest)
    else a :: collapseHyphens ('-' :: b :: rest)
  | a :: rest => a :: collapseHyphens rest
  | [] => []

/-- Helper for `re.match(r'^[A-Z]\.([A-Z]\.)+$', token)`: counts leading
"capital letter, dot" groups covering the whole string. -/
def dotPairs : List Char → Option Nat
  | [] => some 0
  | a :: '.' :: rest =>
    if 'A' ≤ a && a ≤ 'Z' then (dotPairs rest).map (· + 1) else none
  | _ => none

/-- `re.match(r'^[A-Z]\.([A-Z]\.)+$', token)` succeeds: at least two
"capital letter, dot" groups and nothing else. -/
def acronymShape (cs : List Char) : Bool :=
  match dotPairs cs with
  | some n => decide (2 ≤ n)
  | none => false

/-- `re.sub(r"\s'\s", " ", token)`: replace whitespace-apostrophe-whitespace
by a single space, scanning left to right without overlap. -/
def dropLoneApos : List Char → List Char
  | a :: '\'' :: b :: rest =>
    if isPySpace a && isPySpace b then ' ' :: dropLoneApos rest
    else a :: dropLoneApos ('\'' :: b :: rest)
  | a :: rest => a :: dropLoneApos rest
  | [] => []

/-- `re.sub(r"^'\s", "", token)`: drop a leading apostrophe followed by
whitespace. -/
def dropLeadApos (cs : List Char) : List Char :=
  match cs with
  | '\'' :: b :: rest => if isPySpace b then rest else cs
  | _ => cs

/-- `re.sub(r"\s'$", "", token)`: drop a trailing whitespace-apostrophe. -/
def dropTrailApos (cs : List Char) : List Char :=
  match cs.reverse with
  | '\'' :: b :: rest => if isPySpace b then rest.reverse else cs
  | _ => cs

/-- `re.sub(r'\s+', ' ', token)`: collapse whitespace runs to one space.
The boolean records whether the previous character was whitespace. -/
def collapseWsGo : Bool → List Char → List Char
  | _, [] => []
  | prev, c :: rest =>
    if isPySpace c then
      if prev then collapseWsGo true rest else ' ' :: collapseWsGo true rest
    else c :: collapseWsGo false rest

/-- Python `str.strip()` after whitespace collapse. -/
def pyStrip (cs : List Char) : List Char :=
  ((cs.dropWhile isPySpace).reverse.dropWhile isPySpace).reverse

/-- `normalize.py::normalize_token`: the seven-step single-token
normalization pipeline. -/
def normalize_token (token : String) : String :=
  if token = "" then "" else
  let t := pyLower (nfkc token)
  let cs := t.data.map normQuoteDash
  let cs := collapseHyphens cs
  let cs := if pyIsUpper cs || acronymShape cs then cs.filter (· ≠ '.') else cs
  let cs := cs.map (fun c => if isWordChar c || c = '\'' || isPySpace c then c else ' ')
  let cs := dropLoneApos cs
  let cs := dropLeadApos cs
  let cs := dropTrailApos cs
  let cs := pyStrip (collapseWsGo false cs)
  String.mk cs

/-- Scanner for `re.findall(r"\w[\w']*", normalized)`: a token starts at a
word character and continues over word characters and apostrophes.  `cur`
holds the (reversed) token being built. -/
def tokenizeGo : List Char → List Char → List String
  | [], cur => if cur.isEmpty then [] else [String.mk cur.reverse]
  | c :: rest, cur =>
    if cur.isEmpty then
      if isWordChar c then tokenizeGo rest [c] else tokenizeGo rest []
    else
      if isWordChar c || c = '\'' then tokenizeGo rest (c :: cur)
      else String.mk cur.reverse :: tokenizeGo rest []

/-- `normalize.py::tokenize`: normalize, then extract `\w[\w']*` runs and
drop empty tokens (the scanner never produces one, mirroring the Python
filter). -/
def tokenize (text : String) : List String :=
  (tokenizeGo (normalize_token text).data []).filter (fun t => t ≠ "")

/-! ### `normalize.py`: contractions, numbers, units -/

/-- The fixed contraction table of `normalize.py::generate_contraction_variants`,
in source order.  Note that every key except `doesnt` and `cannot` contains an
apostrophe, exactly as in the source. -/
def contractionsTable : List (String × List String) :=
  [("don't", ["do", "not"]),
   ("doesnt", ["does", "not"]),
   ("didn't", ["did", "not"]),
   ("won't", ["will", "not"]),
   ("can't", ["can", "not"]),
   ("cannot", ["can", "not"]),
   ("couldn't", ["could", "not"]),
   ("shouldn't", ["should", "not"]),
   ("wouldn't", ["would", "not"]),
   ("i'm", ["i", "am"]),
   ("you're", ["you", "are"]),
   ("we're", ["we", "are"]),
   ("they're", ["they", "are"]),
   ("he's", ["he", "is"]),
   ("she's", ["she", "is"]),
   ("it's", ["it", "is"]),
   ("that's", ["that", "is"]),
   ("there's", ["there", "is"]),
   ("here's", ["here", "is"]),
   ("what's", ["what", "is"]),
   ("who's", ["who", "is"]),
   ("i'll", ["i", "will"]),
   ("you'll", ["you", "will"]),
   ("we'll", ["we", "will"]),
   ("they'll", ["they", "will"]),
   ("he'll", ["he", "will"]),
   ("she'll", ["she", "will"]),
   ("i've", ["i", "have"]),
   ("you've", ["you", "have"]),
   ("we've", ["we", "have"]),
   ("they've", ["they", "have"]),
   ("i'd", ["i", "would"]),
   ("you'd", ["you", "would"]),
   ("he'd", ["he", "would"]),
   ("she'd", ["she", "would"]),
   ("we'd", ["we", "would"]),
   ("they'd", ["they", "would"])]

/-- `normalize.py::generate_contraction_variants`: lowercase the token, look
up its apostrophe-free form in the table, and return `[[token], expansion]`
on a hit, `[[token]]` otherwise. -/
def generate_contraction_variants (token : String) : List (List String) :=
  let token := pyLower token
  let lookup := String.mk (token.data.filter (· ≠ '\''))
  match contractionsTable.find? (fun p => p.1 = lookup) with
  | some p => [[token], p.2]
  | none => [[token]]

/-- The unit-abbreviation table of `normalize.py::UNIT_ABBREVIATIONS`, in
source order. -/
def unitAbbreviations : List (String × String) :=
  [("km", "kilometers"), ("kilometer", "kilometers"), ("kilometres", "kilometers"),
   ("kilometre", "kilometers"), ("m", "meters"), ("meter", "meters"),
   ("metres", "meters"), ("metre", "meters"), ("cm", "centimeters"),
   ("centimeter", "centimeters"), ("centimetre", "centimeters"),
   ("ft", "feet"), ("foot", "feet"), ("mi", "miles"), ("mile", "miles"),
   ("lb", "pounds"), ("lbs", "pounds"), ("pound", "pounds"),
   ("kg", "kilograms"), ("kilogram", "kilograms"), ("g", "grams"),
   ("gram", "grams"), ("oz", "ounces"), ("ounce", "ounces"),
   ("in", "inches"), ("inch", "inches"), ("yd", "yards"), ("yard", "yards"),
   ("mph", "miles per hour"), ("kph", "kilometers per hour"),
   ("l", "liters"), ("liter", "liters"), ("litre", "liters"),
   ("ml", "milliliters")]

/-- `normalize.py::normalize_unit`: lower-case, strip trailing `s`/`.`, and
look the result up in the table; an unknown unit returns the original
token. -/
def normalize_unit (token : String) : String :=
  let clean := pyRstrip (pyLower token) ['s', '.']
  match unitAbbreviations.find? (fun p => p.1 = clean) with
  | some p => p.2
  | none => token

/-- English cardinal of a natural number below one million.

Modelled from the spec: `number_to_words` calls the external `num2words`
library (not part of this repository) for its cardinal form.  The variants
this feeds into `are_numbers_equivalent` are compared only after stripping
spaces, hyphens and commas, so the separator convention is immaterial; no
claim settled below ever reaches a digit-bearing token, so this model is
never load-bearing. -/
def toCardinal (n : Nat) : String :=
  let ones := ["zero", "one", "two", "three", "four", "five", "six", "seven",
               "eight", "nine", "ten", "eleven", "twelve", "thirteen",
               "fourteen", "fifteen", "sixteen", "seventeen", "eighteen",
               "nineteen"]
  let tens := ["", "", "twenty", "thirty", "forty", "fifty", "sixty",
               "seventy", "eighty", "ninety"]
  let small : Nat → String := fun k =>
    if k < 20 then ones.getD k "" else
      let t := tens.getD (k / 10) ""
      if k % 10 = 0 then t else t ++ " " ++ ones.getD (k % 10) ""
  let hund : Nat → String := fun k =>
    if k < 100 then small k else
      let h := small (k / 100) ++ " hundred"
      if k % 100 = 0 then h else h ++ " " ++ small (k % 100)
  if n < 1000 then hund n
  else if n < 1000000 then
    let th := hund (n / 1000) ++ " thousand"
    if n % 1000 = 0 then th else th ++ " " ++ hund (n % 1000)
  else toString n

/-- English ordinal. Modelled from the spec (the `num2words` ordinal form);
see `toCardinal` for why the exact wording is immaterial. -/
def toOrdinal (n : Nat) : String :=
  let irregular := [("one", "first"), ("two", "second"), ("three", "third"),
                    ("five", "fifth"), ("eight", "eighth"), ("nine", "ninth"),
                    ("twelve", "twelfth"), ("twenty", "twentieth"),
                    ("thirty", "thirtieth"), ("forty", "fortieth"),
                    ("fifty", "fiftieth"), ("sixty", "sixtieth"),
                    ("seventy", "seventieth"), ("eighty", "eightieth"),
                    ("ninety", "ninetieth")]
  let card := toCardinal n
  let parts := card.splitOn " "
  match parts.reverse with
  | [] => card
  | last :: front =>
    let last' :=
      match irregular.find? (fun p => p.1 = last) with
      | some p => p.2
      | none => last ++ "th"
    String.intercalate " " (last' :: front).reverse

/-- `normalize.py::number_to_words`: digit form, cardinal, ordinal, and for
1000–2099 the spoken year form `century + remainder`. -/
def number_to_words (num : Nat) : List String :=
  let base := [toString num, toCardinal num, toOrdinal num]
  if 1000 ≤ num && num ≤ 2099 then
    let century := num / 100
    let remainder := num % 100
    let yearForm :=
      if remainder = 0 then toCardinal century ++ " hundred"
      else toCardinal century ++ " " ++ toCardinal remainder
    base ++ [yearForm]
  else base

/-- Parse of Python `float` on a comma/space-free numeric string whose
digits-only form passes `isdigit` (an optional single dot); `none` models
the `ValueError` that the source catches.  Exact rationals stand in for the
binary floats: every comparison made through this function in the source is
between short decimal literals, where the two notions agree. -/
def parseSimpleFloat (cs : List Char) : Option ℚ :=
  match cs.splitOn '.' with
  | [intPart] => if pyIsDigit intPart then some (digitsToNat intPart) else none
  | [intPart, fracPart] =>
    if (intPart.all Char.isDigit) && (fracPart.all Char.isDigit)
        && !(intPart.isEmpty && fracPart.isEmpty) then
      some ((digitsToNat intPart : ℚ) +
            (digitsToNat fracPart : ℚ) / (10 ^ fracPart.length : ℚ))
    else none
  | _ => none

/-- `normalize.py::are_numbers_equivalent`: direct numeric comparison after
stripping commas/spaces, digit-sequence comparison, then overlap of
separator-stripped `number_to_words` variants. -/
def are_numbers_equivalent (num1 num2 : String) : Bool :=
  let clean1 := num1.data.filter (fun c => c ≠ ',' && c ≠ ' ')
  let clean2 := num2.data.filter (fun c => c ≠ ',' && c ≠ ' ')
  let floatEq :=
    if pyIsDigit (clean1.filter (· ≠ '.')) && pyIsDigit (clean2.filter (· ≠ '.')) then
      match parseSimpleFloat clean1, parseSimpleFloat clean2 with
      | some a, some b => a = b
      | _, _ => false
    else false
  if floatEq then true
  else
    let digits1 := num1.data.filter Char.isDigit
    let digits2 := num2.data.filter Char.isDigit
    if !digits1.isEmpty && !digits2.isEmpty && digits1 = digits2 then true
    else
      let strip3 : String → String := fun v =>
        String.mk (v.data.filter (fun c => c ≠ ' ' && c ≠ '-' && c ≠ ','))
      let variants1 :=
        if !digits1.isEmpty then (number_to_words (digitsToNat digits1)).map strip3
        else [strip3 num1]
      let variants2 :=
        if !digits2.isEmpty then (number_to_words (digitsToNat digits2)).map strip3
        else [strip3 num2]
      variants1.any (fun v => variants2.contains v)

/-! ### `rapidfuzz.fuzz.ratio` and `alignment.py::SentenceAligner._tokens_match` -/

/-- Longest common subsequence length, with a structural fuel so the kernel
can evaluate it (`fuel ≥ |a| + |b|` always suffices; the bound lemmas below
hold for every fuel). -/
def lcsFuel : Nat → List Char → List Char → Nat
  | 0, _, _ => 0
  | _ + 1, [], _ => 0
  | _ + 1, _ :: _, [] => 0
  | f + 1, a :: as, b :: bs =>
    if a = b then lcsFuel f as bs + 1
    else max (lcsFuel f (a :: as) bs) (lcsFuel f as (b :: bs))

/-- Longest common subsequence length of two character lists. -/
def lcs (a b : List Char) : Nat :=
  lcsFuel (a.length + b.length) a b

/-- Modelled from the spec: the "edit-ratio similarity … on a 0–100 scale"
is `rapidfuzz.fuzz.ratio` (external library, not part of this repository),
the normalized Indel similarity `100·(1 − dist/(|a|+|b|))` with
`dist = |a|+|b| − 2·lcs(a,b)`, i.e. `200·lcs/(|a|+|b|)`; two empty strings
score 100. -/
def fuzzSim (a b : String) : ℚ :=
  if a.length + b.length = 0 then 100
  else (200 * lcs a.data b.data : ℚ) / ((a.length : ℚ) + (b.length : ℚ))

/-- `alignment.py::SentenceAligner._tokens_match` with an explicit
threshold (the Python default `threshold=None` resolves to
`config.token_ratio_cutoff`; every call site below passes that value).
The six equivalence paths appear in source order. -/
def tokens_match (threshold : Nat) (tok1 tok2 : String) : Bool :=
  if tok1 = tok2 then true
  else if (threshold : ℚ) ≤ fuzzSim tok1 tok2 then true
  else if are_numbers_equivalent tok1 tok2 then true
  else
    let dehyphen1 := String.mk (tok1.data.filter (fun c => c ≠ '-' && c ≠ ' '))
    let dehyphen2 := String.mk (tok2.data.filter (fun c => c ≠ '-' && c ≠ ' '))
    if dehyphen1 = dehyphen2 && 3 < dehyphen1.length then true
    else
      let unit1 := normalize_unit tok1
      let unit2 := normalize_unit tok2
      if unit1 = unit2 && unit1 ≠ tok1 then true
      else
        let variants1 := generate_contraction_variants tok1
        let variants2 := generate_contraction_variants tok2
        variants1.any (fun v1 => variants2.contains v1)

/-! ### `normalize.py`: IDF and anchors -/

/-- `normalize.py::compute_token_idf` as a lookup: the Python dict has a key
for each member of `tokens`, valued `1/(1 + freq/total)` with
`freq = Counter(all_words).get(token, 1)`.  (With `all_words` empty the
Python code would divide by zero on a non-empty `tokens`; the aligner always
passes the same list twice, and `ℚ` division by zero is harmless here.) -/
def compute_token_idf (tokens allWords : List String) (t : String) : Option ℚ :=
  if tokens.contains t then
    let c := allWords.count t
    let freq : ℚ := if c = 0 then 1 else c
    some (1 / (1 + freq / (allWords.length : ℚ)))
  else none

/-- The stopword set local to `normalize.py::extract_anchors` (a superset of
the aligner's `STOPWORDS`). -/
def anchorStopwords : List String :=
  ["the", "a", "an", "and", "or", "but", "in", "on", "at", "to", "for",
   "of", "with", "by", "from", "as", "is", "was", "are", "were", "been",
   "be", "have", "has", "had", "do", "does", "did", "will", "would",
   "could", "should", "may", "might", "must", "can", "this", "that",
   "these", "those", "i", "you", "he", "she", "it", "we", "they",
   "my", "your", "his", "her", "its", "our", "their"]

/-- Stable insertion of `x` into a list sorted by `le`. -/
def insertSortedBy {α : Type} (le : α → α → Bool) (x : α) : List α → List α
  | [] => [x]
  | y :: ys => if le x y then x :: y :: ys else y :: insertSortedBy le x ys

/-- Stable insertion sort by `le` (total `le` assumed, as at both call
sites). -/
def insertionSortBy {α : Type} (le : α → α → Bool) : List α → List α
  | [] => []
  | x :: xs => insertSortedBy le x (insertionSortBy le xs)

/-- Lexicographic `<` on character lists: Python string comparison for the
third component of the candidate triples (never decisive, since candidate
indices are distinct). -/
def charListLt : List Char → List Char → Bool
  | [], [] => false
  | [], _ :: _ => true
  | _ :: _, [] => false
  | a :: as, b :: bs => if a < b then true else if b < a then false else charListLt as bs

/-- Python `sorted(..., reverse=True)` comparison on the
`(score, index, token)` triples of `extract_anchors`: descending tuple
order. -/
def tripleGe (a b : ℚ × Nat × String) : Bool :=
  if a.1 = b.1 then
    if a.2.1 = b.2.1 then !charListLt a.2.2.data b.2.2.data
    else decide (b.2.1 < a.2.1)
  else decide (b.1 < a.1)

/-- `normalize.py::extract_anchors`: skip stopwords, give digit-initial
tokens `idf + 1.0` (default 1.0) and length-≥5 tokens their idf (default
0.5), sort the `(score, idx, token)` triples descending, keep the top
`maxAnchors`, and re-sort the kept `(idx, token)` pairs by position. -/
def extract_anchors (tokens : List String) (idf : String → Option ℚ)
    (maxAnchors : Nat) : List (Nat × String) :=
  let candidates : List (ℚ × Nat × String) :=
    tokens.enum.filterMap (fun p =>
      let idx := p.1
      let token := p.2
      if anchorStopwords.contains (pyLower token) then none
      else if (match token.data with | c :: _ => c.isDigit | [] => false) then
        some (((idf token).getD 1) + 1, idx, token)
      else if 5 ≤ token.length then
        some ((idf token).getD (1/2), idx, token)
      else none)
  let sorted := insertionSortBy tripleGe candidates
  let top := (sorted.take maxAnchors).map (fun t => (t.2.1, t.2.2))
  insertionSortBy (fun a b => decide (a.1 ≤ b.1)) top

/-! ### `alignment.py`: configuration and scoring -/

/-- The aligner-level stopword set (`alignment.py::STOPWORDS`), used for
token weighting. -/
def STOPWORDS : List String :=
  ["the", "a", "an", "and", "or", "but", "in", "on", "at", "to", "for",
   "of", "with", "by", "from", "as", "is", "was", "are", "were", "been",
   "be", "have", "has", "had", "do", "does", "did", "will", "would",
   "could", "should", "may", "might", "must", "can", "this", "that",
   "these", "those", "i", "you", "he", "she", "it", "we", "they"]

/-- `alignment.py::AlignmentConfig` (field order as in `__init__`). -/
structure AlignmentConfig where
  window_tokens : Nat
  elastic_gap : Nat
  min_accept : ℚ
  warn_accept : ℚ
  token_ratio_cutoff : Nat
  coverage_min : ℚ
  small_sentence_coverage_min : ℚ
  weight_token_sim : ℚ
  weight_coverage : ℚ
  weight_gap_penalty : ℚ
  weight_anchor_bonus : ℚ
  weight_bigram_bonus : ℚ
  fallback_expand_window : Nat
  fallback_elastic_gap : Nat
  fallback_token_ratio : Nat
deriving DecidableEq

/-- `AlignmentConfig()` with all defaults. -/
def defaultAlignmentConfig : AlignmentConfig :=
  ⟨4000, 10, 85/100, 78/100, 92, 80/100, 67/100,
   50/100, 25/100, 20/100, 8/100, 5/100, 1000, 18, 88⟩

/-- `alignment.py::CandidateSpan`: the five sub-scores and the composite. -/
structure CandidateSpan where
  start_idx : Nat
  end_idx : Nat
  token_sim : ℚ
  coverage : ℚ
  gap_penalty : ℚ
  anchor_bonus : ℚ
  bigram_bonus : ℚ
  total_score : ℚ
deriving DecidableEq

/-- `CandidateSpan.compute_total_score`: fill in the weighted composite. -/
def compute_total_score (config : AlignmentConfig) (c : CandidateSpan) : CandidateSpan :=
  ⟨c.start_idx, c.end_idx, c.token_sim, c.coverage, c.gap_penalty,
   c.anchor_bonus, c.bigram_bonus,
   config.weight_token_sim * c.token_sim +
   config.weight_coverage * c.coverage -
   config.weight_gap_penalty * c.gap_penalty +
   config.weight_anchor_bonus * c.anchor_bonus +
   config.weight_bigram_bonus * c.bigram_bonus⟩

/-- `alignment.py::SentenceAligner._get_token_weight`: stopword 0.5,
digit-initial (`re.match(r'\d+', ...)`) 1.25, otherwise 1.0. -/
def get_token_weight (token : String) : ℚ :=
  if STOPWORDS.contains (pyLower token) then 1/2
  else if (match token.data with | c :: _ => c.isDigit | [] => false) then 5/4
  else 1

/-- The single-token pass of `_score_span`'s similarity loop: the best
`fuzz.ratio/100` over span tokens that `_tokens_match` accepts (strict
improvement, mirroring `sim > best_sim`). -/
def bestSingleSim (cutoff : Nat) (sentTok : String) (spanToks : List String) : ℚ :=
  spanToks.foldl (fun best w =>
    if tokens_match cutoff sentTok w then
      let sim := fuzzSim sentTok w / 100
      if best < sim then sim else best
    else best) 0

/-- The compound two- and three-word concatenation scan of `_score_span`
(the `j` loop): at each position try the 2-word concatenation, then the
3-word one when available, stopping at the first hit. -/
def compoundMatch (cutoff : Nat) (dehyp : String) : List String → Bool
  | a :: b :: c :: rest =>
    if tokens_match cutoff dehyp (a ++ b) then true
    else if tokens_match cutoff dehyp (a ++ b ++ c) then true
    else compoundMatch cutoff dehyp (b :: c :: rest)
  | [a, b] => tokens_match cutoff dehyp (a ++ b)
  | _ => false

/-- Per-sentence-token outcome inside `_score_span`: the recorded
similarity, the contribution to `matched_count` (note the compound branch
increments it and the subsequent `best_sim > 0` test increments it again),
and whether the compound path fired. -/
def tokenScore (cutoff : Nat) (sentTok : String) (spanToks : List String) :
    ℚ × Nat × Bool :=
  let s1 := bestSingleSim cutoff sentTok spanToks
  let comp :=
    if s1 < 85/100 && (sentTok.data.contains '-' || 8 < sentTok.length) then
      compoundMatch cutoff (String.mk (sentTok.data.filter (· ≠ '-'))) spanToks
    else false
  let s2 := if comp then 95/100 else s1
  let inc := (if comp then 1 else 0) + (if 0 < s2 then 1 else 0)
  (s2, inc, comp)

/-- Python's substring test `needle in hay` on character lists: `needle` is
a prefix of some suffix of `hay`. -/
def isInfixList (needle : List Char) : List Char → Bool
  | [] => needle.isEmpty
  | c :: rest => needle.isPrefixOf (c :: rest) || isInfixList needle rest

/-- `alignment.py::SentenceAligner._compute_bigram_bonus`: up to the first
five sentence bigrams, `0.01` per occurrence as a substring of the
space-joined span, capped at `0.05`. -/
def compute_bigram_bonus (sentToks spanToks : List String) : ℚ :=
  if sentToks.length < 2 then 0
  else
    let bigrams := sentToks.zip sentToks.tail
    let spanStr := String.intercalate " " spanToks
    let hits := (bigrams.take 5).countP
      (fun bg => isInfixList (bg.1 ++ " " ++ bg.2).data spanStr.data)
    min (5/100) ((hits : ℚ) * (1/100))

/-- `alignment.py::SentenceAligner._score_span`, with the ghost boolean
recording whether any sentence token was matched through the compound
concatenation path. -/
def scoreSpanAux (cfg : AlignmentConfig) (normWords sentToks : List String)
    (startIdx endIdx : Nat) (anchors : List (Nat × String)) :
    CandidateSpan × Bool :=
  let spanToks := (normWords.drop startIdx).take (endIdx + 1 - startIdx)
  let results := sentToks.map (fun t => tokenScore cfg.token_ratio_cutoff t spanToks)
  let sims := results.map (fun r => r.1)
  let matched : Nat := (results.map (fun r => r.2.1)).sum
  let usedCompound := results.any (fun r => r.2.2)
  let weights := sentToks.map get_token_weight
  let wsum := weights.sum
  let tokenSim := if 0 < wsum then
      (((sims.zip weights).map (fun p => p.1 * p.2)).sum) / wsum
    else 0
  let coverage := if sentToks.isEmpty then 0 else (matched : ℚ) / (sentToks.length : ℚ)
  let extra : Nat := spanToks.length - sentToks.length
  let gap := (2/100) * (extra : ℚ) + (3/100) * ((sentToks.length : ℚ) - (matched : ℚ))
  let anchorBonus :=
    if anchors.isEmpty then 0
    else
      let found := anchors.countP (fun a =>
        spanToks.any (fun w => tokens_match cfg.token_ratio_cutoff a.2 w))
      if found = anchors.length then 1 else (found : ℚ) / (anchors.length : ℚ)
  let bigram := compute_bigram_bonus sentToks spanToks
  (compute_total_score cfg
    ⟨startIdx, endIdx, tokenSim, coverage, gap, anchorBonus, bigram, 0⟩,
   usedCompound)

/-- `_score_span` proper (the `CandidateSpan` the Python method returns). -/
def score_span (cfg : AlignmentConfig) (normWords sentToks : List String)
    (startIdx endIdx : Nat) (anchors : List (Nat × String)) : CandidateSpan :=
  (scoreSpanAux cfg normWords sentToks startIdx endIdx anchors).1

/-! ### `alignment.py`: search and the sentence loop -/

/-- The window computation at the head of `_search_for_span`: the strict
window `[cursor, cursor + window_tokens)` clipped to the stream, narrowed to
`[max(cursor, min(anchor_positions) − 50), min(N, max(anchor_positions) + 150))`
when an anchor's (re-tokenized) head token occurs among the first 500 window
words.  (On an anchor whose re-tokenization is empty the Python code would
raise `IndexError`; that cannot arise from `extract_anchors`, and the
embedding treats it as a non-match.) -/
def searchBounds (cfg : AlignmentConfig) (normWords : List String)
    (anchors : List (Nat × String)) (cursor : Nat) : Nat × Nat :=
  let n := normWords.length
  let searchEnd0 := min n (cursor + cfg.window_tokens)
  let anchorPositions :=
    if anchors.isEmpty then []
    else (List.range' cursor (min (cursor + 500) searchEnd0 - cursor)).filter
      (fun i =>
        let wordTok := tokenize (normWords.getD i "")
        anchors.any (fun a =>
          !wordTok.isEmpty && wordTok.contains ((tokenize a.2).headD "")))
  match anchorPositions with
  | [] => (cursor, searchEnd0)
  | p :: ps => (max cursor (ps.foldl min p - 50), min n (ps.foldl max p + 150))

/-- The candidate enumeration of `_search_for_span`: every `start_idx` in the
window whose word matches the first sentence token or any anchor, paired with
each `end_idx` in the elastic range around `start_idx + m − 1` (computed over
`ℤ` exactly as Python computes it; the loop's `end_idx ≥ N` break never fires
because both window ends are clipped to `N`). -/
def candidateSpans (cfg : AlignmentConfig) (normWords sentToks : List String)
    (anchors : List (Nat × String)) (cursor gap : Nat) : List (Nat × Nat) :=
  let b := searchBounds cfg normWords anchors cursor
  let searchStart := b.1
  let searchEnd := b.2
  (List.range' searchStart (searchEnd - searchStart)).flatMap (fun s =>
    let w := normWords.getD s ""
    if tokens_match cfg.token_ratio_cutoff (sentToks.headD "") w
        || anchors.any (fun a => tokens_match cfg.token_ratio_cutoff a.2 w) then
      let expectedEnd : ℤ := (s : ℤ) + (sentToks.length : ℤ) - 1
      let lo : ℤ := max (s : ℤ) (expectedEnd - (gap : ℤ))
      let hi : ℤ := min (searchEnd : ℤ) (expectedEnd + (gap : ℤ) + 1)
      (List.range' lo.toNat (hi - lo).toNat).map (fun e => (s, e))
    else [])

/-- The best-candidate fold of `_search_for_span`: strict improvement over a
running best initialized to score `−1`, so the earliest start (and for equal
starts the earliest end) wins ties. -/
def bestCandidate (score : Nat × Nat → ℚ) (l : List (Nat × Nat)) :
    Option (Nat × Nat) × ℚ :=
  l.foldl (fun acc c => if acc.2 < score c then (some c, score c) else acc)
    (none, -1)

/-- `alignment.py::SentenceAligner._search_for_span`. -/
def searchForSpan (cfg : AlignmentConfig) (normWords sentToks : List String)
    (anchors : List (Nat × String)) (cursor gap : Nat) :
    Option ((Nat × Nat) × ℚ) :=
  let best := bestCandidate
    (fun c => (score_span cfg normWords sentToks c.1 c.2 anchors).total_score)
    (candidateSpans cfg normWords sentToks anchors cursor gap)
  match best.1 with
  | some c => some (c, best.2)
  | none => none

/-- The relaxed configuration built in `_align_single_sentence`'s fallback
phase: a fresh `AlignmentConfig()` (all defaults) with the window grown by
`fallback_expand_window`, the elastic gap and the token-ratio cutoff replaced
by their fallback values. -/
def fallbackConfig (cfg : AlignmentConfig) : AlignmentConfig :=
  ⟨cfg.window_tokens + cfg.fallback_expand_window, cfg.fallback_elastic_gap,
   85/100, 78/100, cfg.fallback_token_ratio, 80/100, 67/100,
   50/100, 25/100, 20/100, 8/100, 5/100, 1000, 18, 88⟩

/-- The fallback phase of `_align_single_sentence`: search under the relaxed
configuration, accept with status `fallback` when the relaxed best meets the
original `warn_accept`. -/
def alignFallback (cfg : AlignmentConfig) (normWords sentToks : List String)
    (anchors : List (Nat × String)) (cursor : Nat) :
    Option ((Nat × Nat) × ℚ × String × String) :=
  let cfgFb := fallbackConfig cfg
  match searchForSpan cfgFb normWords sentToks anchors cursor cfgFb.elastic_gap with
  | some (sp, sc) =>
    if cfg.warn_accept ≤ sc then some (sp, sc, "fallback", "found with expanded search")
    else none
  | none => none

/-- `alignment.py::SentenceAligner._align_single_sentence`: strict pass, the
`min_accept`/`warn_accept` tests, then the fallback phase. -/
def alignSingleSentence (cfg : AlignmentConfig) (normWords sentToks : List String)
    (anchors : List (Nat × String)) (cursor : Nat) :
    Option ((Nat × Nat) × ℚ × String × String) :=
  match searchForSpan cfg normWords sentToks anchors cursor cfg.elastic_gap with
  | some (sp, sc) =>
    if cfg.min_accept ≤ sc then some (sp, sc, "ok", "good match")
    else if cfg.warn_accept ≤ sc then some (sp, sc, "warning", "acceptable but low score")
    else alignFallback cfg normWords sentToks anchors cursor
  | none => alignFallback cfg normWords sentToks anchors cursor

/-- A word of the timestamped stream (`'text'`, `'start'`, `'end'`; `'end'`
is a Lean keyword, so the field is named `stop`). -/
structure Word where
  text : String
  start : Int
  stop : Int
deriving DecidableEq

/-- The running state of `align_sentences`: the per-sentence index-level
spans (ghost — the Python code keeps only `(start_ms, end_ms)`), the emitted
millisecond spans, the per-sentence statuses (`"empty"`/`"failed"`/`"ok"`/
`"warning"`/`"fallback"`; ghost observability of the branch taken), the
monotonic cursor, and the report's global counters. -/
structure AlignState where
  spansIdx : List (Option (Nat × Nat))
  spansMs : List (Option (Int × Int))
  statuses : List String
  cursor : Nat
  aligned : Nat
  unaligned : Nat
  warnings : Nat
deriving DecidableEq

/-- The initial state of the `align_sentences` loop. -/
def initAlignState : AlignState := ⟨[], [], [], 0, 0, 0, 0⟩

/-- One iteration of the sentence loop in
`alignment.py::SentenceAligner.align_sentences`. -/
def alignStep (cfg : AlignmentConfig) (words : List Word)
    (normWords : List String) (idf : String → Option ℚ) (padMs : Int)
    (st : AlignState) (sentence : String) : AlignState :=
  let sentToks := tokenize sentence
  if sentToks.isEmpty then
    ⟨st.spansIdx ++ [none], st.spansMs ++ [none], st.statuses ++ ["empty"],
     st.cursor, st.aligned, st.unaligned + 1, st.warnings⟩
  else
    let anchors := extract_anchors sentToks idf 3
    match alignSingleSentence cfg normWords sentToks anchors st.cursor with
    | none =>
      ⟨st.spansIdx ++ [none], st.spansMs ++ [none], st.statuses ++ ["failed"],
       st.cursor, st.aligned, st.unaligned + 1, st.warnings⟩
    | some (sp, _score, status, _note) =>
      let startIdx := sp.1
      let endIdx := sp.2
      let w1 := words.getD startIdx ⟨"", 0, 0⟩
      let w2 := words.getD endIdx ⟨"", 0, 0⟩
      let startMs := max 0 (w1.start - padMs)
      let endMs := w2.stop + padMs
      ⟨st.spansIdx ++ [some (startIdx, endIdx)],
       st.spansMs ++ [some (startMs, endMs)],
       st.statuses ++ [status],
       endIdx + 1,
       st.aligned + 1,
       st.unaligned,
       st.warnings + (if status = "ok" then 0 else 1)⟩

/-- `alignment.py::SentenceAligner.align_sentences` (and the
`align_sentences_to_words` entry point): normalize the word stream, build
the IDF table over its tokens, and run the monotonic sentence loop. -/
def alignRun (cfg : AlignmentConfig) (words : List Word)
    (sentences : List String) (padMs : Int) : AlignState :=
  let normWords := words.map (fun w => normalize_token w.text)
  let allToks := normWords.flatMap tokenize
  let idf := compute_token_idf allToks allToks
  sentences.foldl (alignStep cfg words normWords idf padMs) initAlignState

/-! ### `builder.py`: manual adjustments and the hybrid merge -/

/-- A caller-provided manual adjustment
(`{"sentence_idx": …, "start_ms": …, "end_ms": …}`). -/
structure ManualAdjustment where
  sentence_idx : Int
  start_ms : Int
  end_ms : Int
deriving DecidableEq

/-- Step 4 of `builder.py::DictationBuilder.build` (lines 386–392): each
adjustment whose 1-based index is in range overwrites that sentence's span
with `(start_ms, end_ms)`; others are skipped.  No check on the times is
performed. -/
def applyManualAdjustments (spans : List (Option (Int × Int)))
    (adjs : List ManualAdjustment) : List (Option (Int × Int)) :=
  adjs.foldl (fun sp adj =>
    if 1 ≤ adj.sentence_idx ∧ adj.sentence_idx ≤ (sp.length : Int) then
      sp.set (adj.sentence_idx - 1).toNat (some (adj.start_ms, adj.end_ms))
    else sp) spans

/-- The hybrid branch of `builder.py::DictationBuilder._perform_alignment`:
collect the indices where the LLM aligner returned no span, run the local
aligner over exactly those sentences in order, and write its results back at
the failed indices.  `grokSpans` is the LLM aligner's output (one entry per
sentence), supplied as an input since the LLM itself is an external
service. -/
def performAlignmentHybrid (cfg : AlignmentConfig) (words : List Word)
    (padMs : Int) (sentences : List String)
    (grokSpans : List (Option (Int × Int))) : List (Option (Int × Int)) :=
  let failedIndices := (List.range grokSpans.length).filter
    (fun i => (grokSpans.getD i none).isNone)
  if failedIndices.isEmpty then grokSpans
  else
    let failedSentences := failedIndices.map (fun i => sentences.getD i "")
    let fuzzySpans := (alignRun cfg words failedSentences padMs).spansMs
    (failedIndices.zip fuzzySpans).foldl (fun fin p => fin.set p.1 p.2) grokSpans

/-! ### Spec-side definitions and claim inputs -/

/-- The fallback row of the spec's accept/warn decision table (§4.4):
accept a relaxed result with status `fallback` when it meets `warn_accept`. -/
def specFallbackCase (warnA : ℚ) (fb : Option ((Nat × Nat) × ℚ)) :
    Option ((Nat × Nat) × ℚ × String × String) :=
  match fb with
  | some (sp, sc) =>
    if warnA ≤ sc then some (sp, sc, "fallback", "found with expanded search")
    else none
  | none => none

/-- The spec's two-pass accept/warn/fallback decision table (§4.4), stated
over the outcomes of the strict and the relaxed search: `ok` at
`min_accept`, `warning` at `warn_accept`, otherwise the fallback row. -/
def specDecision (minA warnA : ℚ) (strict fb : Option ((Nat × Nat) × ℚ)) :
    Option ((Nat × Nat) × ℚ × String × String) :=
  match strict with
  | some (sp, sc) =>
    if minA ≤ sc then some (sp, sc, "ok", "good match")
    else if warnA ≤ sc then some (sp, sc, "warning", "acceptable but low score")
    else specFallbackCase warnA fb
  | none => specFallbackCase warnA fb

/-- The monotonicity relation between two per-sentence results: whenever both
are resolved, the earlier one's end index lies strictly before the later
one's start index. -/
def SpanRel (o1 o2 : Option (Nat × Nat)) : Prop :=
  ∀ s1 e1 s2 e2, o1 = some (s1, e1) → o2 = some (s2, e2) → e1 < s2

/-- The invariant carried through the sentence loop: every resolved span ends
strictly before the cursor, and the resolved spans are pairwise monotonic. -/
def AlignInv (st : AlignState) : Prop :=
  (∀ o ∈ st.spansIdx, ∀ s e, o = some (s, e) → e < st.cursor) ∧
  List.Pairwise SpanRel st.spansIdx

/-- The word stream of the spec's "Exact-match short" end-to-end scenario
(claim C1). -/
def c1Words : List Word :=
  [⟨"the", 0, 100⟩, ⟨"sea", 100, 500⟩, ⟨"is", 500, 600⟩, ⟨"deep", 600, 900⟩]

/-- A four-word stream whose two sentences both align (with status
`warning`), used to witness the loop invariants. -/
def c2Words : List Word :=
  [⟨"zebra", 0, 100⟩, ⟨"mango", 100, 200⟩, ⟨"lemon", 200, 300⟩, ⟨"tiger", 300, 400⟩]

/-! ### Supporting lemmas: score bounds -/

theorem lcsFuel_le (f : Nat) : ∀ (a b : List Char),
    lcsFuel f a b ≤ a.length ∧ lcsFuel f a b ≤ b.length := by
  induction f with
  | zero => intro a b; simp [lcsFuel]
  | succ f ih =>
    intro a b
    match a, b with
    | [], b => simp [lcsFuel]
    | x :: xs, [] => simp [lcsFuel]
    | x :: xs, y :: ys =>
      simp only [lcsFuel, List.length_cons]
      split
      · have h := ih xs ys
        omega
      · have h1 := ih (x :: xs) ys
        have h2 := ih xs (y :: ys)
        simp only [List.length_cons] at h1 h2
        constructor <;> rw [max_le_iff] <;> omega

theorem fuzzSim_nonneg (a b : String) : 0 ≤ fuzzSim a b := by
  unfold fuzzSim
  split
  · norm_num
  · apply div_nonneg
    · positivity
    · positivity

theorem fuzzSim_le_100 (a b : String) : fuzzSim a b ≤ 100 := by
  unfold fuzzSim
  split
  · exact le_rfl
  · rename_i h
    have hlen : a.length + b.length ≠ 0 := h
    have hpos : (0 : ℚ) < (a.length : ℚ) + (b.length : ℚ) := by
      have : 0 < a.length + b.length := Nat.pos_of_ne_zero hlen
      exact_mod_cast this
    rw [div_le_iff₀ hpos]
    have hL := lcsFuel_le (a.data.length + b.data.length) a.data b.data
    have ha : a.length = a.data.length := rfl
    have hb : b.length = b.data.length := rfl
    have h2 : 2 * lcs a.data b.data ≤ a.length + b.length := by
      unfold lcs; omega
    have hc : ((2 * lcs a.data b.data : Nat) : ℚ) ≤ (a.length : ℚ) + (b.length : ℚ) := by
      exact_mod_cast h2
    push_cast at hc
    nlinarith

theorem foldBestSim_bounds (cutoff : Nat) (t : String) :
    ∀ (l : List String) (q : ℚ), 0 ≤ q → q ≤ 1 →
    0 ≤ l.foldl (fun best w =>
      if tokens_match cutoff t w then
        let sim := fuzzSim t w / 100
        if best < sim then sim else best
      else best) q ∧
    l.foldl (fun best w =>
      if tokens_match cutoff t w then
        let sim := fuzzSim t w / 100
        if best < sim then sim else best
      else best) q ≤ 1 := by
  intro l
  induction l with
  | nil => intro q h0 h1; exact ⟨h0, h1⟩
  | cons w ws ih =>
    intro q h0 h1
    simp only [List.foldl_cons]
    apply ih
    · split
      · split
        · have := fuzzSim_nonneg t w; positivity
        · exact h0
      · exact h0
    · split
      · split
        · have := fuzzSim_le_100 t w; linarith
        · exact h1
      · exact h1

theorem bestSingleSim_bounds (cutoff : Nat) (t : String) (l : List String) :
    0 ≤ bestSingleSim cutoff t l ∧ bestSingleSim cutoff t l ≤ 1 := by
  unfold bestSingleSim
  exact foldBestSim_bounds cutoff t l 0 le_rfl (by norm_num)

theorem tokenScore_fst_bounds (cutoff : Nat) (t : String) (sp : List String) :
    0 ≤ (tokenScore cutoff t sp).1 ∧ (tokenScore cutoff t sp).1 ≤ 1 := by
  have h := bestSingleSim_bounds cutoff t sp
  unfold tokenScore
  dsimp only
  split
  · split
    · exact ⟨by norm_num, by norm_num⟩
    · exact h
  · exact h

theorem tokenScore_inc_of_not_comp (cutoff : Nat) (t : String) (sp : List String)
    (h : (tokenScore cutoff t sp).2.2 = false) :
    (tokenScore cutoff t sp).2.1 =
      if 0 < bestSingleSim cutoff t sp then 1 else 0 := by
  unfold tokenScore at *
  dsimp only at *
  rw [h]
  simp

theorem get_token_weight_nonneg (t : String) : 0 ≤ get_token_weight t := by
  unfold get_token_weight
  split
  · norm_num
  · split <;> norm_num

theorem sum_map_indicator {α : Type} (p : α → Prop) [DecidablePred p] (f : α → Nat) :
    ∀ (l : List α), (∀ t ∈ l, f t = if p t then 1 else 0) →
    (l.map f).sum = l.countP (fun t => decide (p t)) := by
  intro l
  induction l with
  | nil => simp
  | cons x xs ih =>
    intro h
    have hx := h x (List.mem_cons_self x xs)
    have hxs := ih (fun t ht => h t (List.mem_cons_of_mem x ht))
    simp only [List.map_cons, List.sum_cons, List.countP_cons, hx, hxs,
      decide_eq_true_eq]
    split <;> omega

/-! ### Supporting lemmas: the sub-scores of a candidate span -/

theorem scoreSpanAux_not_comp (cfg : AlignmentConfig) (nw toks : List String)
    (a b : Nat) (anch : List (Nat × String))
    (h : (scoreSpanAux cfg nw toks a b anch).2 = false) :
    ∀ t ∈ toks,
      (tokenScore cfg.token_ratio_cutoff t ((nw.drop a).take (b + 1 - a))).2.2 = false := by
  unfold scoreSpanAux at h
  dsimp only at h
  rw [List.any_eq_false] at h
  intro t ht
  have := h _ (List.mem_map_of_mem (fun t => tokenScore cfg.token_ratio_cutoff t
    ((nw.drop a).take (b + 1 - a))) ht)
  simpa using this

theorem tokenScore_sum_eq (cutoff : Nat) (toks spanToks : List String)
    (h : ∀ t ∈ toks, (tokenScore cutoff t spanToks).2.2 = false) :
    ((toks.map (fun t => tokenScore cutoff t spanToks)).map (fun r => r.2.1)).sum =
      toks.countP (fun t => decide (0 < bestSingleSim cutoff t spanToks)) := by
  rw [List.map_map]
  exact sum_map_indicator (fun t => 0 < bestSingleSim cutoff t spanToks) _ toks
    (fun t ht => tokenScore_inc_of_not_comp cutoff t spanToks (h t ht))

theorem scoreSpanAux_coverage_eq (cfg : AlignmentConfig) (nw toks : List String)
    (a b : Nat) (anch : List (Nat × String))
    (h : (scoreSpanAux cfg nw toks a b anch).2 = false) :
    (scoreSpanAux cfg nw toks a b anch).1.coverage =
      if toks.isEmpty then 0
      else (toks.countP (fun t => decide (0 < bestSingleSim cfg.token_ratio_cutoff t
          ((nw.drop a).take (b + 1 - a)))) : ℚ) / (toks.length : ℚ) := by
  have hc := scoreSpanAux_not_comp cfg nw toks a b anch h
  unfold scoreSpanAux
  dsimp only [compute_total_score]
  rw [tokenScore_sum_eq cfg.token_ratio_cutoff toks _ hc]

theorem scoreSpanAux_coverage_bounds (cfg : AlignmentConfig)
    (nw toks : List String) (a b : Nat) (anch : List (Nat × String))
    (h : (scoreSpanAux cfg nw toks a b anch).2 = false) :
    0 ≤ (scoreSpanAux cfg nw toks a b anch).1.coverage ∧
    (scoreSpanAux cfg nw toks a b anch).1.coverage ≤ 1 := by
  rw [scoreSpanAux_coverage_eq cfg nw toks a b anch h]
  split
  · norm_num
  · rename_i hne
    have hlen : 0 < toks.length := by
      cases toks with
      | nil => simp at hne
      | cons x xs => simp
    have hlenq : (0 : ℚ) < (toks.length : ℚ) := by exact_mod_cast hlen
    constructor
    · positivity
    · rw [div_le_one hlenq]
      exact_mod_cast List.countP_le_length _

theorem scoreSpanAux_gap_nonneg (cfg : AlignmentConfig) (nw toks : List String)
    (a b : Nat) (anch : List (Nat × String))
    (h : (scoreSpanAux cfg nw toks a b anch).2 = false) :
    0 ≤ (scoreSpanAux cfg nw toks a b anch).1.gap_penalty := by
  have hc := scoreSpanAux_not_comp cfg nw toks a b anch h
  unfold scoreSpanAux
  dsimp only [compute_total_score]
  rw [tokenScore_sum_eq cfg.token_ratio_cutoff toks _ hc]
  have h1 : (toks.countP (fun t => decide (0 < bestSingleSim cfg.token_ratio_cutoff t
      ((nw.drop a).take (b + 1 - a)))) : ℚ) ≤ (toks.length : ℚ) := by
    exact_mod_cast List.countP_le_length _
  have h2 : (0 : ℚ) ≤ (((nw.drop a).take (b + 1 - a)).length - toks.length : Nat) := by
    positivity
  have := mul_nonneg (by norm_num : (0:ℚ) ≤ 3/100) (by linarith :
    (0 : ℚ) ≤ (toks.length : ℚ) - (toks.countP (fun t =>
      decide (0 < bestSingleSim cfg.token_ratio_cutoff t
        ((nw.drop a).take (b + 1 - a)))) : ℚ))
  nlinarith

theorem scoreSpanAux_token_sim_le_one (cfg : AlignmentConfig)
    (nw toks : List String) (a b : Nat) (anch : List (Nat × String)) :
    (scoreSpanAux cfg nw toks a b anch).1.token_sim ≤ 1 := by
  unfold scoreSpanAux
  dsimp only [compute_total_score]
  split
  · rename_i hw
    rw [div_le_one hw]
    rw [List.map_map, List.zip_map', List.map_map]
    refine List.sum_le_sum ?_
    intro t _
    simp only [Function.comp_apply]
    exact mul_le_of_le_one_left (get_token_weight_nonneg t)
      (tokenScore_fst_bounds cfg.token_ratio_cutoff t _).2
  · norm_num

theorem scoreSpanAux_anchor_le_one (cfg : AlignmentConfig)
    (nw toks : List String) (a b : Nat) (anch : List (Nat × String)) :
    (scoreSpanAux cfg nw toks a b anch).1.anchor_bonus ≤ 1 := by
  unfold scoreSpanAux
  dsimp only [compute_total_score]
  split
  · norm_num
  · split
    · exact le_rfl
    · rename_i hne _
      have hlen : 0 < anch.length := by
        cases anch with
        | nil => simp at hne
        | cons x xs => simp
      have hlenq : (0 : ℚ) < (anch.length : ℚ) := by exact_mod_cast hlen
      rw [div_le_one hlenq]
      exact_mod_cast List.countP_le_length _

theorem compute_bigram_bonus_le (s w : List String) :
    compute_bigram_bonus s w ≤ 5/100 := by
  unfold compute_bigram_bonus
  split
  · norm_num
  · exact min_le_left _ _

theorem scoreSpanAux_bigram_le (cfg : AlignmentConfig)
    (nw toks : List String) (a b : Nat) (anch : List (Nat × String)) :
    (scoreSpanAux cfg nw toks a b anch).1.bigram_bonus ≤ 5/100 := by
  unfold scoreSpanAux
  dsimp only [compute_total_score]
  exact compute_bigram_bonus_le _ _

theorem scoreSpanAux_total_eq (cfg : AlignmentConfig) (nw toks : List String)
    (a b : Nat) (anch : List (Nat × String)) :
    (scoreSpanAux cfg nw toks a b anch).1.total_score =
      cfg.weight_token_sim * (scoreSpanAux cfg nw toks a b anch).1.token_sim +
      cfg.weight_coverage * (scoreSpanAux cfg nw toks a b anch).1.coverage -
      cfg.weight_gap_penalty * (scoreSpanAux cfg nw toks a b anch).1.gap_penalty +
      cfg.weight_anchor_bonus * (scoreSpanAux cfg nw toks a b anch).1.anchor_bonus +
      cfg.weight_bigram_bonus * (scoreSpanAux cfg nw toks a b anch).1.bigram_bonus := by
  unfold scoreSpanAux
  dsimp only [compute_total_score]

/-! ### Supporting lemmas: where the search can place a span -/

theorem foldBest_mem (score : Nat × Nat → ℚ) :
    ∀ (l : List (Nat × Nat)) (a : Option (Nat × Nat)) (q : ℚ) (c : Nat × Nat),
    (l.foldl (fun acc c => if acc.2 < score c then (some c, score c) else acc)
      (a, q)).1 = some c →
    a = some c ∨ c ∈ l := by
  intro l
  induction l with
  | nil => intro a q c h; exact Or.inl h
  | cons x xs ih =>
    intro a q c h
    simp only [List.foldl_cons] at h
    by_cases hx : q < score x
    · rw [if_pos hx] at h
      rcases ih (some x) (score x) c h with h1 | h2
      · exact Or.inr (by simp [Option.some_inj.mp h1])
      · exact Or.inr (List.mem_cons_of_mem x h2)
    · rw [if_neg hx] at h
      rcases ih a q c h with h1 | h2
      · exact Or.inl h1
      · exact Or.inr (List.mem_cons_of_mem x h2)

theorem bestCandidate_mem (score : Nat × Nat → ℚ) (l : List (Nat × Nat))
    (c : Nat × Nat) (h : (bestCandidate score l).1 = some c) : c ∈ l := by
  unfold bestCandidate at h
  rcases foldBest_mem score l none (-1) c h with h1 | h2
  · exact absurd h1 (by simp)
  · exact h2

theorem searchBounds_fst_ge (cfg : AlignmentConfig) (normWords : List String)
    (anchors : List (Nat × String)) (cursor : Nat) :
    cursor ≤ (searchBounds cfg normWords anchors cursor).1 := by
  unfold searchBounds
  dsimp only
  split
  · exact le_rfl
  · exact Nat.le_max_left _ _

theorem candidateSpans_mem (cfg : AlignmentConfig)
    (normWords sentToks : List String) (anchors : List (Nat × String))
    (cursor gap : Nat) (c : Nat × Nat)
    (h : c ∈ candidateSpans cfg normWords sentToks anchors cursor gap) :
    cursor ≤ c.1 ∧ c.1 ≤ c.2 := by
  unfold candidateSpans at h
  rw [List.mem_flatMap] at h
  obtain ⟨s, hs, hc⟩ := h
  rw [List.mem_range'_1] at hs
  have hstart : cursor ≤ s :=
    le_trans (searchBounds_fst_ge cfg normWords anchors cursor) hs.1
  dsimp only at hc
  split at hc
  · rw [List.mem_map] at hc
    obtain ⟨e, he, rfl⟩ := hc
    rw [List.mem_range'_1] at he
    refine ⟨hstart, ?_⟩
    have hlo : (s : ℤ) ≤ max (s : ℤ)
        ((s : ℤ) + (sentToks.length : ℤ) - 1 - (gap : ℤ)) := le_max_left _ _
    have : s ≤ (max (s : ℤ)
        ((s : ℤ) + (sentToks.length : ℤ) - 1 - (gap : ℤ))).toNat := by
      omega
    exact le_trans this he.1
  · exact absurd hc (List.not_mem_nil c)

theorem searchForSpan_some (cfg : AlignmentConfig)
    (normWords sentToks : List String) (anchors : List (Nat × String))
    (cursor gap : Nat) (c : Nat × Nat) (sc : ℚ)
    (h : searchForSpan cfg normWords sentToks anchors cursor gap = some (c, sc)) :
    cursor ≤ c.1 ∧ c.1 ≤ c.2 := by
  unfold searchForSpan at h
  dsimp only at h
  split at h
  · rename_i c' hc'
    have hmem := bestCandidate_mem _ _ _ hc'
    have hcc : c' = c := by
      simpa using congrArg (fun o => Option.map Prod.fst o) h
    subst hcc
    exact candidateSpans_mem cfg normWords sentToks anchors cursor gap c' hmem
  · exact absurd h (by simp)

theorem alignFallback_some (cfg : AlignmentConfig)
    (normWords sentToks : List String) (anchors : List (Nat × String))
    (cursor : Nat) (c : Nat × Nat) (sc : ℚ) (st note : String)
    (h : alignFallback cfg normWords sentToks anchors cursor = some (c, sc, st, note)) :
    cursor ≤ c.1 ∧ c.1 ≤ c.2 := by
  unfold alignFallback at h
  dsimp only at h
  split at h
  · rename_i sp hsp
    split at h
    · obtain ⟨h1, -⟩ := Prod.mk.injEq .. ▸ Option.some_inj.mp h
      subst h1
      exact searchForSpan_some (fallbackConfig cfg) normWords sentToks anchors
        cursor _ _ _ hsp
    · exact absurd h (by simp)
  · exact absurd h (by simp)

theorem alignSingleSentence_some (cfg : AlignmentConfig)
    (normWords sentToks : List String) (anchors : List (Nat × String))
    (cursor : Nat) (c : Nat × Nat) (sc : ℚ) (st note : String)
    (h : alignSingleSentence cfg normWords sentToks anchors cursor =
      some (c, sc, st, note)) :
    cursor ≤ c.1 ∧ c.1 ≤ c.2 := by
  unfold alignSingleSentence at h
  split at h
  · rename_i sp hsp
    split at h
    · obtain ⟨h1, -⟩ := Prod.mk.injEq .. ▸ Option.some_inj.mp h
      subst h1
      exact searchForSpan_some cfg normWords sentToks anchors cursor _ _ _ hsp
    · split at h
      · obtain ⟨h1, -⟩ := Prod.mk.injEq .. ▸ Option.some_inj.mp h
        subst h1
        exact searchForSpan_some cfg normWords sentToks anchors cursor _ _ _ hsp
      · exact alignFallback_some cfg normWords sentToks anchors cursor c sc st note h
  · exact alignFallback_some cfg normWords sentToks anchors cursor c sc st note h

/-! ### Supporting lemmas: the sentence loop -/

theorem alignInv_init : AlignInv initAlignState := by
  constructor
  · intro o ho; exact absurd ho (List.not_mem_nil o)
  · exact List.Pairwise.nil

theorem pairwise_append_none {l : List (Option (Nat × Nat))}
    (h : List.Pairwise SpanRel l) : List.Pairwise SpanRel (l ++ [none]) := by
  rw [List.pairwise_append]
  refine ⟨h, List.pairwise_singleton _ _, ?_⟩
  intro a _ b hb
  simp only [List.mem_singleton] at hb
  subst hb
  intro s1 e1 s2 e2 _ h2
  exact Option.noConfusion h2

theorem alignStep_inv (cfg : AlignmentConfig) (words : List Word)
    (normWords : List String) (idf : String → Option ℚ) (padMs : Int)
    (st : AlignState) (sentence : String) (h : AlignInv st) :
    AlignInv (alignStep cfg words normWords idf padMs st sentence) := by
  obtain ⟨hbound, hpair⟩ := h
  unfold alignStep
  dsimp only
  split
  · exact ⟨by
      intro o ho s e hoe
      rcases List.mem_append.mp ho with h1 | h2
      · exact hbound o h1 s e hoe
      · simp only [List.mem_singleton] at h2
        subst h2; exact Option.noConfusion hoe,
      pairwise_append_none hpair⟩
  · rcases halign : alignSingleSentence cfg normWords (tokenize sentence)
        (extract_anchors (tokenize sentence) idf 3) st.cursor with
      _ | ⟨sp, sc, status, note⟩
    · dsimp only
      exact ⟨by
        intro o ho s e hoe
        rcases List.mem_append.mp ho with h1 | h2
        · exact hbound o h1 s e hoe
        · simp only [List.mem_singleton] at h2
          subst h2; exact Option.noConfusion hoe,
        pairwise_append_none hpair⟩
    · dsimp only
      have hb := alignSingleSentence_some cfg normWords (tokenize sentence)
        (extract_anchors (tokenize sentence) idf 3) st.cursor sp sc status note halign
      constructor
      · intro o ho s e hoe
        dsimp only
        rcases List.mem_append.mp ho with h1 | h2
        · have := hbound o h1 s e hoe
          omega
        · simp only [List.mem_singleton] at h2
          subst h2
          obtain ⟨h3, h4⟩ := Prod.mk.injEq .. ▸ Option.some_inj.mp hoe
          omega
      · rw [List.pairwise_append]
        refine ⟨hpair, List.pairwise_singleton _ _, ?_⟩
        intro a ha b hb'
        simp only [List.mem_singleton] at hb'
        subst hb'
        intro s1 e1 s2 e2 ha1 hb2
        have h1 := hbound a ha s1 e1 ha1
        obtain ⟨h3, h4⟩ := Prod.mk.injEq .. ▸ Option.some_inj.mp hb2
        omega

theorem alignLoop_inv (cfg : AlignmentConfig) (words : List Word)
    (normWords : List String) (idf : String → Option ℚ) (padMs : Int) :
    ∀ (sentences : List String) (st : AlignState), AlignInv st →
    AlignInv (sentences.foldl (alignStep cfg words normWords idf padMs) st) := by
  intro sentences
  induction sentences with
  | nil => intro st h; exact h
  | cons s ss ih =>
    intro st h
    exact ih _ (alignStep_inv cfg words normWords idf padMs st s h)

theorem alignRun_pairwise (cfg : AlignmentConfig) (words : List Word)
    (sentences : List String) (padMs : Int) :
    List.Pairwise SpanRel (alignRun cfg words sentences padMs).spansIdx := by
  unfold alignRun
  exact (alignLoop_inv cfg words _ _ padMs sentences initAlignState alignInv_init).2

theorem alignStep_lengths (cfg : AlignmentConfig) (words : List Word)
    (normWords : List String) (idf : String → Option ℚ) (padMs : Int)
    (st : AlignState) (sentence : String) :
    (alignStep cfg words normWords idf padMs st sentence).spansIdx.length =
      st.spansIdx.length + 1 ∧
    (alignStep cfg words normWords idf padMs st sentence).spansMs.length =
      st.spansMs.length + 1 := by
  unfold alignStep
  dsimp only
  split
  · simp
  · split <;> simp

theorem alignLoop_lengths (cfg : AlignmentConfig) (words : List Word)
    (normWords : List String) (idf : String → Option ℚ) (padMs : Int) :
    ∀ (sentences : List String) (st : AlignState),
    (sentences.foldl (alignStep cfg words normWords idf padMs) st).spansMs.length =
      st.spansMs.length + sentences.length := by
  intro sentences
  induction sentences with
  | nil => intro st; simp
  | cons s ss ih =>
    intro st
    simp only [List.foldl_cons, List.length_cons]
    rw [ih]
    have := (alignStep_lengths cfg words normWords idf padMs st s).2
    omega

theorem alignRun_spansMs_length (cfg : AlignmentConfig) (words : List Word)
    (sentences : List String) (padMs : Int) :
    (alignRun cfg words sentences padMs).spansMs.length = sentences.length := by
  unfold alignRun
  rw [alignLoop_lengths]
  simp [initAlignState]

/-! ### Supporting lemmas: writing spans back at the failed indices -/

theorem getD_set_ne {α : Type} (l : List α) (j i : Nat) (v d : α) (h : j ≠ i) :
    (l.set j v).getD i d = l.getD i d := by
  rw [List.getD_eq_getElem?_getD, List.getD_eq_getElem?_getD, List.getElem?_set]
  simp [h]

theorem getD_set_eq {α : Type} (l : List α) (i : Nat) (v d : α)
    (h : i < l.length) : (l.set i v).getD i d = v := by
  rw [List.getD_eq_getElem?_getD, List.getElem?_set]
  simp [h]

theorem foldlSet_length {α : Type} :
    ∀ (l : List (Nat × α)) (init : List α),
    (l.foldl (fun a p => a.set p.1 p.2) init).length = init.length := by
  intro l
  induction l with
  | nil => intro init; rfl
  | cons x xs ih =>
    intro init
    simp only [List.foldl_cons]
    rw [ih, List.length_set]

theorem foldlSet_getD_of_not_mem {α : Type} (d : α) :
    ∀ (l : List (Nat × α)) (init : List α) (i : Nat),
    i ∉ l.map Prod.fst →
    (l.foldl (fun a p => a.set p.1 p.2) init).getD i d = init.getD i d := by
  intro l
  induction l with
  | nil => intro init i _; rfl
  | cons x xs ih =>
    intro init i h
    simp only [List.map_cons, List.mem_cons] at h
    push_neg at h
    simp only [List.foldl_cons]
    rw [ih _ i h.2, getD_set_ne _ _ _ _ _ (fun he => h.1 he.symm)]

theorem foldlSet_getD_of_mem {α : Type} (d : α) :
    ∀ (l : List (Nat × α)) (init : List α) (i : Nat) (x : α),
    (l.map Prod.fst).Nodup → (i, x) ∈ l → i < init.length →
    (l.foldl (fun a p => a.set p.1 p.2) init).getD i d = x := by
  intro l
  induction l with
  | nil => intro init i x _ hmem _; exact absurd hmem (List.not_mem_nil _)
  | cons p ps ih =>
    intro init i x hnd hmem hlen
    simp only [List.map_cons, List.nodup_cons] at hnd
    simp only [List.foldl_cons]
    rcases List.mem_cons.mp hmem with h1 | h2
    · subst h1
      rw [foldlSet_getD_of_not_mem d ps _ i hnd.1]
      exact getD_set_eq init i x d hlen
    · exact ih _ i x hnd.2 h2 (by rw [List.length_set]; exact hlen)

/-! ## The claims -/

/-- C1: the spec's "Exact-match short" scenario claims that on the word
stream `[{the,0,100},{sea,100,500},{is,500,600},{deep,600,900}]` and the
sentence `"The sea is deep."`, `align_sentences` (default config,
`pad_ms = 100`) returns span `(0, 1000)` with status `ok` and best score
`≥ 0.85`.  The code does the opposite: the sentence has no anchors (all its
tokens are stopwords or shorter than 5), the best strict candidate is the
exact span `(0, 3)` with composite `0.7515` — the `0.08` anchor weight
contributes nothing and the bigram bonus is weighted twice
(`0.05 · 0.03`) — the fallback pass scores identically, and since
`0.7515 < warn_accept = 0.78` the sentence is not aligned at all. -/
theorem c1_exact_match_short_run :
    searchForSpan defaultAlignmentConfig
      (c1Words.map (fun w => normalize_token w.text))
      ["the", "sea", "is", "deep"] [] 0 10 = some ((0, 3), 1503/2000) ∧
    (1503/2000 : ℚ) < defaultAlignmentConfig.warn_accept ∧
    (alignRun defaultAlignmentConfig c1Words ["The sea is deep."] 100).spansMs = [none] ∧
    (alignRun defaultAlignmentConfig c1Words ["The sea is deep."] 100).statuses = ["failed"] ∧
    (alignRun defaultAlignmentConfig c1Words ["The sea is deep."] 100).unaligned = 1 := by
  refine ⟨by decide, by norm_num [defaultAlignmentConfig], ?_, ?_, ?_⟩ <;> decide

/-- C2: for every run of the local aligner and all sentence positions
`i < j` whose results are both non-null, the backing word-index spans
satisfy `end_idx(i) < start_idx(j)`: index-level spans are strictly
monotonic and non-overlapping. -/
theorem c2_spans_monotonic (cfg : AlignmentConfig) (words : List Word)
    (sentences : List String) (padMs : Int) (i j s1 e1 s2 e2 : Nat)
    (hij : i < j)
    (hi : (alignRun cfg words sentences padMs).spansIdx.getD i none = some (s1, e1))
    (hj : (alignRun cfg words sentences padMs).spansIdx.getD j none = some (s2, e2)) :
    e1 < s2 := by
  have hjl : j < (alignRun cfg words sentences padMs).spansIdx.length := by
    by_contra hle
    push_neg at hle
    rw [List.getD_eq_default _ none hle] at hj
    exact Option.noConfusion hj
  have hil : i < (alignRun cfg words sentences padMs).spansIdx.length :=
    lt_trans hij hjl
  have hp := alignRun_pairwise cfg words sentences padMs
  rw [List.pairwise_iff_getElem] at hp
  rw [List.getD_eq_getElem _ none hil] at hi
  rw [List.getD_eq_getElem _ none hjl] at hj
  exact hp i j hil hjl hij s1 e1 s2 e2 hi hj

/-- Witness for C2: a concrete two-sentence run in which both sentences
align (`["Zebra mango.", "Lemon tiger."]` over `c2Words` yields index spans
`(0,1)` and `(2,3)`), instantiating the theorem at `i = 0 < j = 1`. -/
theorem c2_spans_monotonic_witness :
    (0 : Nat) < 1 ∧
    (alignRun defaultAlignmentConfig c2Words ["Zebra mango.", "Lemon tiger."]
      100).spansIdx.getD 0 none = some (0, 1) ∧
    (alignRun defaultAlignmentConfig c2Words ["Zebra mango.", "Lemon tiger."]
      100).spansIdx.getD 1 none = some (2, 3) ∧
    1 < 2 :=
  ⟨by decide, by decide, by decide,
    c2_spans_monotonic defaultAlignmentConfig c2Words
      ["Zebra mango.", "Lemon tiger."] 100 0 1 0 1 2 3
      (by decide) (by decide) (by decide)⟩

/-- C3: cursor non-advancement on failure.  If a loop step records the
sentence as not aligned (it appends `none`), the cursor — the word index at
which the search window of the next sentence starts — is unchanged. -/
theorem c3_cursor_not_advanced (cfg : AlignmentConfig) (words : List Word)
    (normWords : List String) (idf : String → Option ℚ) (padMs : Int)
    (st : AlignState) (sentence : String)
    (h : (alignStep cfg words normWords idf padMs st sentence).spansIdx =
      st.spansIdx ++ [none]) :
    (alignStep cfg words normWords idf padMs st sentence).cursor = st.cursor := by
  by_cases hemp : (tokenize sentence).isEmpty = true
  · simp [alignStep, hemp]
  · cases halign : alignSingleSentence cfg normWords (tokenize sentence)
        (extract_anchors (tokenize sentence) idf 3) st.cursor with
    | none => simp [alignStep, hemp, halign]
    | some v =>
      obtain ⟨sp, sc, status, note⟩ := v
      simp [alignStep, hemp, halign] at h

/-- Witness for C3: a concrete failing step (one sentence against an empty
word stream) appends `none` and leaves the cursor at its old value. -/
theorem c3_cursor_not_advanced_witness :
    (alignStep defaultAlignmentConfig [] [] (compute_token_idf [] []) 100
      initAlignState "Sea.").spansIdx = initAlignState.spansIdx ++ [none] ∧
    (alignStep defaultAlignmentConfig [] [] (compute_token_idf [] []) 100
      initAlignState "Sea.").cursor = initAlignState.cursor :=
  ⟨by decide,
    c3_cursor_not_advanced defaultAlignmentConfig [] [] (compute_token_idf [] [])
      100 initAlignState "Sea." (by decide)⟩

/-- C4: under the default configuration, `_align_single_sentence` follows
the two-pass decision table exactly: strict best `≥ 0.85` gives `ok`, else
`≥ 0.78` gives `warning` (still accepted), otherwise the fallback search —
whose configuration grows the window by 1000 tokens (to 5000), sets the
elastic gap to 18 and the token-ratio cutoff to 88 — gives `fallback` when
its best meets `0.78`, and otherwise the sentence is not aligned
(`none`). -/
theorem c4_decision_table (normWords sentToks : List String)
    (anchors : List (Nat × String)) (cursor : Nat) :
    alignSingleSentence defaultAlignmentConfig normWords sentToks anchors cursor =
      specDecision (85/100) (78/100)
        (searchForSpan defaultAlignmentConfig normWords sentToks anchors cursor 10)
        (searchForSpan (fallbackConfig defaultAlignmentConfig) normWords sentToks
          anchors cursor 18) ∧
    (fallbackConfig defaultAlignmentConfig).window_tokens = 5000 ∧
    (fallbackConfig defaultAlignmentConfig).elastic_gap = 18 ∧
    (fallbackConfig defaultAlignmentConfig).token_ratio_cutoff = 88 := by
  refine ⟨?_, rfl, rfl, rfl⟩
  unfold alignSingleSentence specDecision alignFallback specFallbackCase
  rfl

/-- Counterexample to C5 as stated: scoring the single-token sentence
`["icebreaker"]` against the span `["ice", "breaker"]` (word indices 0–1),
the compound path matches and `matched_count` is incremented twice — once in
the compound branch and once by the `best_sim > 0` test — so the coverage
sub-score is `2`, outside `[0, 1]` and not equal to the fraction (1) of
sentence tokens with a match. -/
theorem c5_coverage_counterexample :
    (score_span defaultAlignmentConfig ["ice", "breaker"] ["icebreaker"] 0 1 []).coverage
      = 2 ∧
    ¬ ((score_span defaultAlignmentConfig ["ice", "breaker"] ["icebreaker"] 0 1
      []).coverage ≤ 1) := by
  constructor <;> decide

/-- C5 as amended: for every candidate span scored against a non-empty
sentence token list in which no token is matched through the compound
concatenation path, the coverage sub-score equals
(number of sentence tokens whose best single-token similarity is
positive) / (number of sentence tokens) and lies in `[0, 1]`.  (A compound
match is counted twice, which is what makes the original claim fail.) -/
theorem c5_coverage_amended (cfg : AlignmentConfig) (nw toks : List String)
    (a b : Nat) (anch : List (Nat × String)) (hne : toks ≠ [])
    (h : (scoreSpanAux cfg nw toks a b anch).2 = false) :
    (score_span cfg nw toks a b anch).coverage =
      (toks.countP (fun t => decide (0 < bestSingleSim cfg.token_ratio_cutoff t
        ((nw.drop a).take (b + 1 - a)))) : ℚ) / (toks.length : ℚ) ∧
    0 ≤ (score_span cfg nw toks a b anch).coverage ∧
    (score_span cfg nw toks a b anch).coverage ≤ 1 := by
  have hb := scoreSpanAux_coverage_bounds cfg nw toks a b anch h
  have he := scoreSpanAux_coverage_eq cfg nw toks a b anch h
  have hemp : toks.isEmpty = false := by
    cases toks with
    | nil => exact absurd rfl hne
    | cons x xs => rfl
  rw [hemp] at he
  simp only [Bool.false_eq_true, if_false] at he
  exact ⟨he, hb.1, hb.2⟩

/-- Witness for C5 as amended: the exact-match span of the C1 scenario has
no compound match; its coverage is `4/4 = 1`, within `[0, 1]`. -/
theorem c5_coverage_amended_witness :
    (scoreSpanAux defaultAlignmentConfig ["the", "sea", "is", "deep"]
      ["the", "sea", "is", "deep"] 0 3 []).2 = false ∧
    (score_span defaultAlignmentConfig ["the", "sea", "is", "deep"]
      ["the", "sea", "is", "deep"] 0 3 []).coverage ≤ 1 :=
  ⟨by decide,
    (c5_coverage_amended defaultAlignmentConfig ["the", "sea", "is", "deep"]
      ["the", "sea", "is", "deep"] 0 3 [] (by decide) (by decide)).2.2⟩

/-- C6 (code bug): the contraction round-trip fails.
`generate_contraction_variants` strips apostrophes from the token before the
table lookup (`"don't" → "dont"`), but every negation/copula/modal key in
the table keeps its apostrophe, so the lookup misses and no expansion is
generated — contradicting the function's own docstring, which promises
`"don't" → [["don't"], ["do", "not"]]`.  Consequently the matcher does not
recognize a contraction as equivalent to its space-joined expansion. -/
theorem c6_contraction_roundtrip_eval :
    generate_contraction_variants "don't" = [["don't"]] ∧
    tokens_match 92 "don't" "do not" = false ∧
    generate_contraction_variants "i'm" = [["i'm"]] ∧
    tokens_match 92 "i'm" "i am" = false ∧
    generate_contraction_variants "we'll" = [["we'll"]] ∧
    tokens_match 92 "we'll" "we will" = false := by
  refine ⟨?_, ?_, ?_, ?_, ?_, ?_⟩ <;> decide

/-- Counterexample to C7 as stated: an adjustment with an in-range sentence
index but invalid times (`start_ms = 500 ≥ end_ms = 300`) is *not* rejected
by `DictationBuilder.build`: it overwrites the previously computed span
`(0, 1000)`. -/
theorem c7_invalid_adjustment_applied :
    ¬ ((500 : Int) < 300) ∧
    applyManualAdjustments [some (0, 1000)] [⟨1, 500, 300⟩] = [some (500, 300)] ∧
    applyManualAdjustments [some (0, 1000)] [⟨1, 500, 300⟩] ≠ [some (0, 1000)] := by
  refine ⟨?_, ?_, ?_⟩ <;> decide

/-- C7 as amended: the builder applies any manual adjustment whose 1-based
sentence index is in range, regardless of whether `start_ms < end_ms` holds;
only adjustments with out-of-range indices are skipped (and skipping leaves
every computed span in place).  Time validation happens in the GUI layer
(`app.py`), not in `DictationBuilder.build`. -/
theorem c7_adjustment_amended (spans : List (Option (Int × Int)))
    (adjs : List ManualAdjustment) (adj : ManualAdjustment) :
    ((∀ a ∈ adjs, ¬ (1 ≤ a.sentence_idx ∧ a.sentence_idx ≤ (spans.length : Int))) →
      applyManualAdjustments spans adjs = spans) ∧
    (1 ≤ adj.sentence_idx → adj.sentence_idx ≤ (spans.length : Int) →
      applyManualAdjustments spans [adj] =
        spans.set (adj.sentence_idx - 1).toNat (some (adj.start_ms, adj.end_ms))) := by
  constructor
  · intro h
    induction adjs with
    | nil => rfl
    | cons a rest ih =>
      have ha := h a (List.mem_cons_self a rest)
      unfold applyManualAdjustments
      simp only [List.foldl_cons, if_neg ha]
      exact ih (fun x hx => h x (List.mem_cons_of_mem a hx))
  · intro h1 h2
    unfold applyManualAdjustments
    simp only [List.foldl_cons, List.foldl_nil, if_pos (And.intro h1 h2)]

/-- Witness for C7 as amended: out-of-range index 0 is skipped; in-range
index 1 overwrites the span with `(7, 9)`. -/
theorem c7_adjustment_amended_witness :
    applyManualAdjustments [some (0, 1000)] [⟨0, 5, 10⟩] = [some (0, 1000)] ∧
    applyManualAdjustments [some (0, 1000)] [⟨1, 7, 9⟩] = [some (7, 9)] :=
  ⟨(c7_adjustment_amended [some (0, 1000)] [⟨0, 5, 10⟩] ⟨0, 5, 10⟩).1 (by decide),
   Eq.trans ((c7_adjustment_amended [some (0, 1000)] [] ⟨1, 7, 9⟩).2
     (by decide) (by decide)) (by decide)⟩

/-- C8: in hybrid mode the merged span array has one entry per input
sentence, the LLM aligner's span wins wherever it is non-null, and every
LLM-failed sentence receives the local aligner's result for its position in
the run over exactly the failed sentences, taken in their original order. -/
theorem c8_hybrid_merge (cfg : AlignmentConfig) (words : List Word)
    (padMs : Int) (sentences : List String)
    (grokSpans : List (Option (Int × Int)))
    (hlen : grokSpans.length = sentences.length) :
    (performAlignmentHybrid cfg words padMs sentences grokSpans).length =
      sentences.length ∧
    (∀ i, i < sentences.length → (grokSpans.getD i none).isSome →
      (performAlignmentHybrid cfg words padMs sentences grokSpans).getD i none =
        grokSpans.getD i none) ∧
    (∀ i, i < sentences.length → grokSpans.getD i none = none →
      (performAlignmentHybrid cfg words padMs sentences grokSpans).getD i none =
        (alignRun cfg words
          (((List.range grokSpans.length).filter
            (fun k => (grokSpans.getD k none).isNone)).map
            (fun k => sentences.getD k "")) padMs).spansMs.getD
          (((List.range grokSpans.length).filter
            (fun k => (grokSpans.getD k none).isNone)).indexOf i) none) := by
  unfold performAlignmentHybrid
  dsimp only
  set F := (List.range grokSpans.length).filter
    (fun k => (grokSpans.getD k none).isNone) with hF
  set localSpans := (alignRun cfg words (F.map (fun k => sentences.getD k ""))
    padMs).spansMs with hLS
  have hLSlen : localSpans.length = F.length := by
    rw [hLS, alignRun_spansMs_length, List.length_map]
  have hFnd : F.Nodup := List.Nodup.filter _ (List.nodup_range _)
  have hFlt : ∀ k ∈ F, k < grokSpans.length :=
    fun k hk => List.mem_range.mp (List.mem_filter.mp hk).1
  have hfst : (F.zip localSpans).map Prod.fst = F :=
    List.map_fst_zip F localSpans (le_of_eq hLSlen.symm)
  refine ⟨?_, ?_, ?_⟩
  · split
    · exact hlen
    · rw [foldlSet_length]
      exact hlen
  · intro i hi hsome
    split
    · rfl
    · have hnotF : i ∉ F := by
        intro hiF
        have := (List.mem_filter.mp hiF).2
        rw [Option.isNone_iff_eq_none] at this
        rw [this] at hsome
        simp at hsome
      rw [foldlSet_getD_of_not_mem none _ _ _ (by rw [hfst]; exact hnotF)]
  · intro i hi hnone
    have hiF : i ∈ F := List.mem_filter.mpr
      ⟨List.mem_range.mpr (hlen ▸ hi), by rw [hnone]; rfl⟩
    split
    · rename_i hFempty
      rw [List.isEmpty_iff] at hFempty
      rw [hFempty] at hiF
      exact absurd hiF (List.not_mem_nil i)
    · have hk : F.indexOf i < F.length := List.indexOf_lt_length.mpr hiF
      have hk' : F.indexOf i < localSpans.length := by omega
      have hkz : F.indexOf i < (F.zip localSpans).length := by
        rw [List.length_zip]; omega
      have hmem : (i, localSpans.getD (F.indexOf i) none) ∈ F.zip localSpans := by
        have h1 : (F.zip localSpans)[F.indexOf i] =
            (F[F.indexOf i], localSpans[F.indexOf i]) := List.getElem_zip
        have h2 : F[F.indexOf i] = i := List.indexOf_get hk
        have h3 := List.getElem_mem hkz
        rw [h1, h2] at h3
        rw [List.getD_eq_getElem localSpans none hk']
        exact h3
      exact foldlSet_getD_of_mem none _ _ _ _
        (by rw [hfst]; exact hFnd) hmem (hFlt i hiF)

/-- Witness for C8: with LLM spans `[none, some (5000, 6000)]` over the
two-sentence `c2Words` input, the merge keeps the LLM span at index 1 and
fills index 0 from the local aligner's run over the single failed
sentence. -/
theorem c8_hybrid_merge_witness :
    ([none, some ((5000 : Int), (6000 : Int))].length =
      (["Zebra mango.", "Lemon tiger."] : List String).length) ∧
    (performAlignmentHybrid defaultAlignmentConfig c2Words 100
      ["Zebra mango.", "Lemon tiger."] [none, some (5000, 6000)]).getD 1 none =
      some (5000, 6000) ∧
    (performAlignmentHybrid defaultAlignmentConfig c2Words 100
      ["Zebra mango.", "Lemon tiger."] [none, some (5000, 6000)]).getD 0 none =
      some (0, 300) :=
  ⟨rfl,
    Eq.trans
      ((c8_hybrid_merge defaultAlignmentConfig c2Words 100
        ["Zebra mango.", "Lemon tiger."] [none, some (5000, 6000)] rfl).2.1 1
        (by decide) (by decide))
      (by decide),
    Eq.trans
      ((c8_hybrid_merge defaultAlignmentConfig c2Words 100
        ["Zebra mango.", "Lemon tiger."] [none, some (5000, 6000)] rfl).2.2 0
        (by decide) (by decide))
      (by decide)⟩

/-- Counterexample to C9 as stated: unit equivalence through
`normalize_unit` is not symmetric in `tokens_match`.  Both `"km"` and
`"kilometers"` canonicalize to `"kilometers"`, and
`tokens_match("km", "kilometers")` holds, but
`tokens_match("kilometers", "km")` is false: the unit path requires the
*first* token to be changed by normalization (`unit1 != tok1`), and
`normalize_unit "kilometers" = "kilometers"`. -/
theorem c9_unit_match_asymmetric :
    normalize_unit "km" = "kilometers" ∧
    normalize_unit "kilometers" = "kilometers" ∧
    tokens_match 92 "km" "kilometers" = true ∧
    tokens_match 92 "kilometers" "km" = false := by
  refine ⟨?_, ?_, ?_, ?_⟩ <;> decide

/-- C9 as amended: the unit path of `tokens_match` is one-sided — for any
threshold, `tokens_match a b` holds whenever both tokens canonicalize to the
same full form *and* canonicalization changes `a`; the mirrored call
`tokens_match b a` is only guaranteed when canonicalization also changes
`b`.  In particular `tokens_match("km", "kilometers")` holds but
`tokens_match("kilometers", "km")` does not. -/
theorem c9_unit_match_amended (thr : Nat) (a b : String)
    (h1 : normalize_unit a = normalize_unit b) (h2 : normalize_unit a ≠ a) :
    tokens_match thr a b = true := by
  unfold tokens_match
  split
  · rfl
  · split
    · rfl
    · split
      · rfl
      · dsimp only
        split
        · rfl
        · split
          · rfl
          · rename_i hcond
            exfalso
            simp [h1, h2] at hcond
            exact h2 (h1.trans hcond)

/-- Witness for C9 as amended: instantiated at `("km", "kilometers")` with
threshold 92. -/
theorem c9_unit_match_amended_witness :
    normalize_unit "km" = normalize_unit "kilometers" ∧
    normalize_unit "km" ≠ "km" ∧
    tokens_match 92 "km" "kilometers" = true :=
  ⟨by decide, by decide,
    c9_unit_match_amended 92 "km" "kilometers" (by decide) (by decide)⟩

/-- C10: for every candidate span in which no sentence token is matched
through the compound concatenation path, the composite score is at most
`0.50·1 + 0.25·1 + 0.08·1 + 0.05·0.05 = 0.8325`: token similarity, coverage
and anchor bonus are each at most 1, the bigram bonus at most `0.05`, and
the gap penalty nonnegative.  Since `0.8325 < min_accept = 0.85`, such a
candidate can never produce status `ok` under the default weights. -/
theorem c10_no_compound_never_ok (nw toks : List String) (a b : Nat)
    (anch : List (Nat × String))
    (h : (scoreSpanAux defaultAlignmentConfig nw toks a b anch).2 = false) :
    (score_span defaultAlignmentConfig nw toks a b anch).total_score ≤
      8325/10000 ∧
    (8325/10000 : ℚ) < defaultAlignmentConfig.min_accept := by
  constructor
  · have hτ := scoreSpanAux_token_sim_le_one defaultAlignmentConfig nw toks a b anch
    have hcov := (scoreSpanAux_coverage_bounds defaultAlignmentConfig nw toks a b anch h).2
    have hg := scoreSpanAux_gap_nonneg defaultAlignmentConfig nw toks a b anch h
    have hα := scoreSpanAux_anchor_le_one defaultAlignmentConfig nw toks a b anch
    have hβ := scoreSpanAux_bigram_le defaultAlignmentConfig nw toks a b anch
    unfold score_span
    rw [scoreSpanAux_total_eq]
    have hw : defaultAlignmentConfig.weight_token_sim = 50/100 ∧
        defaultAlignmentConfig.weight_coverage = 25/100 ∧
        defaultAlignmentConfig.weight_gap_penalty = 20/100 ∧
        defaultAlignmentConfig.weight_anchor_bonus = 8/100 ∧
        defaultAlignmentConfig.weight_bigram_bonus = 5/100 := ⟨rfl, rfl, rfl, rfl, rfl⟩
    rw [hw.1, hw.2.1, hw.2.2.1, hw.2.2.2.1, hw.2.2.2.2]
    linarith
  · norm_num [defaultAlignmentConfig]

/-- Witness for C10: the exact-match candidate of the C1 scenario uses no
compound match; its composite (0.7515) respects the 0.8325 bound. -/
theorem c10_no_compound_never_ok_witness :
    (scoreSpanAux defaultAlignmentConfig ["the", "sea", "is", "deep"]
      ["the", "sea", "is", "deep"] 0 3 []).2 = false ∧
    (score_span defaultAlignmentConfig ["the", "sea", "is", "deep"]
      ["the", "sea", "is", "deep"] 0 3 []).total_score ≤ 8325/10000 :=
  ⟨by decide,
    (c10_no_compound_never_ok ["the", "sea", "is", "deep"]
      ["the", "sea", "is", "deep"] 0 3 [] (by decide)).1⟩

end Dictation
